import Mathlib

/-!
# Verification of the xk6-connectrpc streaming bridge

A shallow embedding, in Lean 4, of the stream state machine of the
`connectrpc` k6 extension (file `stream.go` of the repository), together
with theorems settling the specification claims about it.

The Go code runs one script (cooperative) thread plus two worker
goroutines per stream.  The embedding is sequential: channels become
explicit queues in the state, goroutine steps become explicit step
functions, and every externally observable action (a synchronous throw to
the script, a network send, a half-close, an event enqueued to the task
queue, the release of the task queue) is recorded in an effect trace.
External library calls (`protojson`, `connectStream.Send`, the JS
runtime) are abstracted as oracles recorded in the input data or in an
environment, with the one concrete fact the code depends on stated where
it is used.
-/

/-- Write-side state of a stream: `opened = iota + 1`, `closed` (stream.go). -/
inductive WState
  | opened
  | closed
deriving DecidableEq, Repr

/-- Abstraction of the `[]byte` payload of a queued message.  `protojson`
and the JSON well-formedness of the bytes are external to the repository,
so a byte string is represented by what the stream code observes of it:
`empty` is a nil / zero-length slice (no JSON value at all), and
`doc schemaOk` is a non-empty JSON document, where `schemaOk` records
whether `protojson.Unmarshal` of those bytes into a fresh message of the
method's input schema succeeds. -/
inductive Bytes
  | empty
  | doc (schemaOk : Bool)
deriving DecidableEq, Repr

/-- `message` (stream.go): a unit of the write queue, either a payload or
the close-write sentinel (`isClosing`). -/
structure Message where
  isClosing : Bool
  msg : Bytes
deriving DecidableEq, Repr

/-- The value a script passes to `stream.write`: `nullish` covers
`null` / `undefined` / absent (the `data == nil || IsUndefined || IsNull`
test in `write`); `obj schemaOk` is a JS object whose `MarshalJSON`
succeeds and yields a non-empty JSON document with the given schema fit;
`cyclic` is an object whose `MarshalJSON` fails (e.g. a cyclic value). -/
inductive JSData
  | nullish
  | obj (schemaOk : Bool)
  | cyclic
deriving DecidableEq, Repr

/-- The state of one stream, from the `stream` struct (stream.go) and its
construction in `connectrpc.go` (`writingState: opened`, fresh `done`
channel, fresh task queue).  Channels are modelled by their observable
state: `doneClosed` for the one-shot `done` channel, `writeQueue` for the
messages handed to (but not yet consumed by) the write loop,
`queueClosed` for the `closeQueueOnce`-guarded release of the task queue,
`readLoopStarted` for the `startReadLoopOnce` / `readLoopStarted` pair,
and `sendCount` counts the `connectStream.Send` calls made so far (it
indexes the send-outcome oracle of the environment). -/
structure StreamState where
  writingState : WState
  explicitlyClosed : Bool
  hasTimeout : Bool
  timeoutCancelled : Bool
  doneClosed : Bool
  queueClosed : Bool
  readLoopStarted : Bool
  sendCount : Nat
  writeQueue : List Message
  writerExited : Bool
deriving DecidableEq, Repr

/-- Observable effects of the stream operations, in program order.
`throwClosedWrite` is the synchronous `common.Throw` of
"cannot write to a closed stream"; `throwMarshalError` the synchronous
throw of "failed to marshal message"; `throwStreamClosed` the synchronous
throw of "stream is closed"; `sent` a successful `connectStream.Send`;
`startReadLoop` the (once-guarded) `go s.readLoop()`; `closeRequest` the
half-close `connectStream.CloseRequest()`; `emitErrorEv` an `error` event
queued by the write path; `releaseQueue` the `tq.Close()` inside
`closeTaskQueue`; `cancelTimeout` the cancellation of the deadline
context. -/
inductive Effect
  | throwClosedWrite
  | throwMarshalError
  | throwStreamClosed
  | sent (b : Bytes)
  | startReadLoop
  | closeRequest
  | emitErrorEv
  | releaseQueue
  | cancelTimeout
deriving DecidableEq, Repr

/-- Environment: the outcome oracle for successive `connectStream.Send`
calls (the network is external to the repository); `sendOk n` tells
whether the `n`-th send (0-indexed) succeeds. -/
structure Env where
  sendOk : Nat → Bool

/-- The state of a freshly constructed stream (`connectrpc.go`,
`ModuleInstance.stream`): write side `opened`, nothing closed, queue
empty, read loop not started.  `hasTimeout` records whether the call
parameters carried a positive timeout (`beginStream`). -/
def initialStream (hasTimeout : Bool) : StreamState :=
  { writingState := .opened
    explicitlyClosed := false
    hasTimeout := hasTimeout
    timeoutCancelled := false
    doneClosed := false
    queueClosed := false
    readLoopStarted := false
    sendCount := 0
    writeQueue := []
    writerExited := false }

/-- `closeTaskQueue` (stream.go): releases the task queue at most once,
guarded by `closeQueueOnce`. -/
def closeTaskQueue (s : StreamState) : StreamState × List Effect :=
  if s.queueClosed then (s, [])
  else ({ s with queueClosed := true }, [.releaseQueue])

/-- `shutdown` (stream.go): closes the `done` channel with a
check-then-close guard, then releases the task queue (when the read loop
was started, the Go code defers that release to a detached waiter that
runs after the read loop exits; the sequential embedding performs the
guarded release in place, since in both branches `closeTaskQueue` is
invoked exactly once).  Metrics recording is an external best-effort sink
and is not modelled. -/
def shutdown (s : StreamState) : StreamState × List Effect :=
  closeTaskQueue (if s.doneClosed then s else { s with doneClosed := true })

/-- `stream.write` (stream.go): rejects writes once `writingState` is
`closed` with a synchronous throw; otherwise marshals the value (nullish
values produce nil bytes, a failing `MarshalJSON` throws), then hands the
message to the write loop — unless the `done` signal has fired, in which
case it throws "stream is closed".  The model assumes a live JS runtime
(the only situation in which a script can call `write`). -/
def write (s : StreamState) (d : JSData) : StreamState × List Effect :=
  if s.writingState = .closed then (s, [.throwClosedWrite])
  else
    match d with
    | .cyclic => (s, [.throwMarshalError])
    | .nullish =>
        if s.doneClosed then (s, [.throwStreamClosed])
        else ({ s with writeQueue := s.writeQueue ++ [⟨false, .empty⟩] }, [])
    | .obj schemaOk =>
        if s.doneClosed then (s, [.throwStreamClosed])
        else ({ s with writeQueue := s.writeQueue ++ [⟨false, .doc schemaOk⟩] }, [])

/-- `stream.end` (stream.go): a no-op when the write side is already
closed; otherwise flips `writingState` to `closed` and enqueues the
close-write sentinel (skipped when `done` has already fired). -/
def endStream (s : StreamState) : StreamState × List Effect :=
  if s.writingState = .closed then (s, [])
  else
    let s1 := { s with writingState := WState.closed }
    if s1.doneClosed then (s1, [])
    else ({ s1 with writeQueue := s1.writeQueue ++ [⟨true, .empty⟩] }, [])

/-- `stream.close` (stream.go): marks the close as explicit, cancels the
deadline context when one exists (a `context.CancelFunc` is idempotent,
so the cancellation is observable only the first time), and calls
`shutdown` directly.  It does not touch `writingState`. -/
def closeStream (s : StreamState) : StreamState × List Effect :=
  let s0 := { s with explicitlyClosed := true }
  let p1 : StreamState × List Effect :=
    if s0.hasTimeout && !s0.timeoutCancelled then
      ({ s0 with timeoutCancelled := true }, [Effect.cancelTimeout])
    else (s0, [])
  ((shutdown p1.1).1, p1.2 ++ (shutdown p1.1).2)

/-- `protojson.Unmarshal(msg.msg, dynamicpb.NewMessage(input))` as observed
by `processMessage`: it fails on nil / empty input (protojson requires a
syntactically valid JSON value; empty input is a syntax error,
"unexpected EOF"), and on a non-empty document it succeeds exactly when
the document fits the input schema. -/
def unmarshalOk : Bytes → Bool
  | .empty => false
  | .doc schemaOk => schemaOk

/-- `stream.processMessage` (stream.go): unmarshal the queued bytes into a
fresh input message (failure emits `error` and shuts the stream down),
then `Send` it (failure likewise emits `error` and shuts down); after the
first successful send, and only then, start the read loop, guarded by
`startReadLoopOnce`. -/
def processMessage (env : Env) (s : StreamState) (m : Message) :
    StreamState × List Effect :=
  if unmarshalOk m.msg then
    if env.sendOk s.sendCount then
      let s1 := { s with sendCount := s.sendCount + 1 }
      if s1.readLoopStarted then (s1, [.sent m.msg])
      else ({ s1 with readLoopStarted := true }, [.sent m.msg, .startReadLoop])
    else
      let s1 := { s with sendCount := s.sendCount + 1 }
      ((shutdown s1).1, .emitErrorEv :: (shutdown s1).2)
  else
    ((shutdown s).1, .emitErrorEv :: (shutdown s).2)

/-- The inner drain loop of `stream.writeLoop` (stream.go), entered when a
close-write sentinel is dequeued: non-blocking receives process every
message still pending, skipping further sentinels and sending payloads;
once the queue is empty, issue the half-close (`CloseRequest`) and invoke
`shutdown`, and the write loop returns. -/
def drainPending (env : Env) (s : StreamState) : List Message → StreamState × List Effect
  | [] =>
      let s1 := { s with writerExited := true }
      ((shutdown s1).1, .closeRequest :: (shutdown s1).2)
  | m :: rest =>
      if m.isClosing then drainPending env s rest
      else
        let p1 := processMessage env s m
        ((drainPending env p1.1 rest).1, p1.2 ++ (drainPending env p1.1 rest).2)

/-- One iteration of the outer loop of `stream.writeLoop` (stream.go): a
returned worker does nothing; if the `done` signal has fired the worker
returns; otherwise it dequeues one message — a close-write sentinel
triggers the drain-and-close path, a payload goes through
`processMessage`.  (An empty queue blocks the Go worker; here the step is
a no-op.) -/
def writeLoopStep (env : Env) (s : StreamState) : StreamState × List Effect :=
  if s.writerExited then (s, [])
  else if s.doneClosed then ({ s with writerExited := true }, [])
  else
    match s.writeQueue with
    | [] => (s, [])
    | m :: rest =>
        if m.isClosing then drainPending env { s with writeQueue := [] } rest
        else processMessage env { s with writeQueue := rest } m

/-- An observable operation on a stream: a script call (`write`, `end`,
`close`) or one scheduling step of the write worker. -/
inductive Op
  | write (d : JSData)
  | endOp
  | closeOp
  | step

/-- Apply one operation. -/
def applyOp (env : Env) (s : StreamState) : Op → StreamState × List Effect
  | .write d => write s d
  | .endOp => endStream s
  | .closeOp => closeStream s
  | .step => writeLoopStep env s

/-- Run a sequence of operations, concatenating the effect traces. -/
def runOps (env : Env) (s : StreamState) : List Op → StreamState × List Effect
  | [] => (s, [])
  | op :: ops =>
      let p1 := applyOp env s op
      ((runOps env p1.1 ops).1, p1.2 ++ (runOps env p1.1 ops).2)

/-! ## Read loop: receive-error classification (stream.go, `readLoop`) -/

/-- What the `readLoop` error-handling code can observe of a `Receive`
error (errors themselves are external values; each field mirrors one test
the Go code performs on the error).  `code` and the `msgHas*` fields are
only meaningful when `isConnect` holds (in Go they are observations of
the unwrapped `connect.Error`). -/
structure RecvError where
  isEOF : Bool
  isConnect : Bool
  code : String
  msgHasEOF : Bool
  isCtxCanceled : Bool
  errStrHasCtxCanceled : Bool
  msgHasCtxCanceled : Bool
  errText : String
  details : List String
deriving DecidableEq, Repr

/-- The JS error object constructed by `emitError` (stream.go): for a
`connect.Error` it has `code`, `message` and `details` properties; for
any other error only `message`. -/
structure ErrPayload where
  code : Option String
  message : String
  details : Option (List String)
deriving DecidableEq, Repr

/-- `emitError`'s payload construction (stream.go). -/
def errorPayload (e : RecvError) : ErrPayload :=
  if e.isConnect then ⟨some e.code, e.errText, some e.details⟩
  else ⟨none, e.errText, none⟩

/-- Terminal emission chosen by the read loop for a receive error. -/
inductive ReadEmit
  | emitEnd
  | emitErr (p : ErrPayload)
deriving DecidableEq, Repr

/-- The error-classification cascade of `stream.readLoop` (stream.go), in
source order: direct EOF; connect-wrapped EOF-in-message; direct context
cancellation gated on `explicitlyClosed`; connect-wrapped cancellation
(code "canceled" or "context canceled" in the message) gated on
`explicitlyClosed`; everything else emits `error`. -/
def classifyRecv (e : RecvError) (explicitlyClosed : Bool) : ReadEmit :=
  if e.isEOF then .emitEnd
  else if e.isConnect && e.msgHasEOF then .emitEnd
  else if (e.isCtxCanceled || e.errStrHasCtxCanceled) && explicitlyClosed then .emitEnd
  else if e.isConnect && (e.code = "canceled" || e.msgHasCtxCanceled) && explicitlyClosed then
    .emitEnd
  else .emitErr (errorPayload e)

/-- An error the read loop treats as end-of-stream before the cancellation
checks run: direct `io.EOF`, or a connect error whose message mentions
EOF. -/
def eofClassified (e : RecvError) : Bool :=
  e.isEOF || (e.isConnect && e.msgHasEOF)

/-- An error matching one of the two cancellation checks of the read
loop: direct `context.Canceled` (or "context canceled" in the error
string), or a connect error with code "canceled" or "context canceled" in
its message. -/
def cancelClassified (e : RecvError) : Bool :=
  (e.isCtxCanceled || e.errStrHasCtxCanceled)
    || (e.isConnect && (e.code = "canceled" || e.msgHasCtxCanceled))

/-! ## Event registry (stream.go, `eventListeners`) -/

/-- A registered listener value as `emit` observes it: whether
`sobek.AssertFunction` accepts it, and whether invoking it returns an
error (a JS exception thrown inside the listener). -/
structure Listener where
  callable : Bool
  throws : Bool
deriving DecidableEq, Repr

/-- Outcome of invoking one listener; the Go code discards the returned
error (`_, _ = fn(...)`), so a `threw` outcome is swallowed. -/
inductive InvokeResult
  | ok
  | threw
deriving DecidableEq, Repr

/-- Invoking one callable listener. -/
def invokeListener (l : Listener) : InvokeResult :=
  if l.throws then .threw else .ok

/-- `eventListeners.emit` (stream.go): walk the registration-ordered
listener list for the event; invoke every value that is a function,
ignoring the result (and hence any exception); skip non-callable
entries.  The returned list records the invocations performed, in
order. -/
def emit (ls : List Listener) : List InvokeResult :=
  ls.filterMap fun l => if l.callable then some (invokeListener l) else none

/-- The task-queue drain: queued emissions (each an event with the
listener list snapshotted at emission time) execute one after another on
the single cooperative thread, in queue order. -/
def drainQueue (q : List (List Listener)) : List (List InvokeResult) :=
  q.map emit

/-! ## emitData (stream.go) -/

/-- What `emitData` hands to the `data` listeners. -/
inductive DataEvent
  | parsedObj (v : String)
  | rawString (raw : String)
deriving DecidableEq, Repr

/-- `stream.emitData` (stream.go): with the marshalled response bytes in
hand (modelled as a `String`), do nothing when they are empty
(`len(data) > 0` guard); otherwise try `json.Unmarshal` (the external Go
JSON parser, abstracted as the `parse` oracle): on failure emit the raw
bytes as a string, on success emit the parsed object. -/
def emitDataEvent (parse : String → Option String) (data : String) : Option DataEvent :=
  if data.length > 0 then
    match parse data with
    | none => some (.rawString data)
    | some v => some (.parsedObj v)
  else none

/-! ## Generic message codec (spec §4.6)

Modelled from the spec: the schema-driven codec itself lives in the
external `protojson` / `dynamicpb` libraries, not in this repository;
following §4.6 it is "encode(opaque, schema) → wire" and
"decode(wire, schema) → opaque", parameterized by a runtime schema,
rejecting values that cannot be mapped, with no compile-time message
types.  Field lists are represented as telescopes to keep the recursion
structural. -/

/-- A runtime message schema: primitive field types, repeated fields, and
messages given as an ordered telescope of named fields. -/
inductive PType
  | pBool
  | pInt
  | pString
  | pList (t : PType)
  | pNil
  | pField (name : String) (t : PType) (rest : PType)
deriving DecidableEq, Repr

/-- An opaque script-side value (a JSON-shaped object/array/primitive
graph), with objects and arrays as telescopes. -/
inductive JVal
  | jBool (b : Bool)
  | jInt (n : Int)
  | jStr (s : String)
  | jEmptyObj
  | jField (name : String) (v : JVal) (rest : JVal)
  | jEmptyArr
  | jCons (head : JVal) (tail : JVal)
deriving DecidableEq, Repr

/-- A schema-described wire message. -/
inductive Wire
  | wBool (b : Bool)
  | wVarint (n : Int)
  | wStr (s : String)
  | wEmptyMsg
  | wField (name : String) (w : Wire) (rest : Wire)
  | wEmptyRep
  | wRep (head : Wire) (tail : Wire)
deriving DecidableEq, Repr

/-- Modelled from the spec (§4.6): encode an opaque value against a
runtime schema, rejecting (= `none`) any value the schema cannot
represent. -/
def encode : PType → JVal → Option Wire
  | .pBool, .jBool b => some (.wBool b)
  | .pInt, .jInt n => some (.wVarint n)
  | .pString, .jStr s => some (.wStr s)
  | .pNil, .jEmptyObj => some .wEmptyMsg
  | .pField name t rest, .jField name' v vrest =>
      if name = name' then
        match encode t v, encode rest vrest with
        | some w, some wrest => some (.wField name w wrest)
        | _, _ => none
      else none
  | .pList _, .jEmptyArr => some .wEmptyRep
  | .pList t, .jCons h tl =>
      match encode t h, encode (.pList t) tl with
      | some wh, some wtl => some (.wRep wh wtl)
      | _, _ => none
  | _, _ => none

/-- Modelled from the spec (§4.6): decode a wire message back into the
opaque representation, against the same runtime schema. -/
def decode : PType → Wire → Option JVal
  | .pBool, .wBool b => some (.jBool b)
  | .pInt, .wVarint n => some (.jInt n)
  | .pString, .wStr s => some (.jStr s)
  | .pNil, .wEmptyMsg => some .jEmptyObj
  | .pField name t rest, .wField name' w wrest =>
      if name = name' then
        match decode t w, decode rest wrest with
        | some v, some vrest => some (.jField name v vrest)
        | _, _ => none
      else none
  | .pList _, .wEmptyRep => some .jEmptyArr
  | .pList t, .wRep wh wtl =>
      match decode t wh, decode (.pList t) wtl with
      | some h, some tl => some (.jCons h tl)
      | _, _ => none
  | _, _ => none

/-! ## Concrete states, errors and trace predicates used by the theorems -/

/-- The close-write sentinel message. -/
def closeMsg : Message := ⟨true, Bytes.empty⟩

/-- A well-formed payload message used in witnesses. -/
def payloadMsg : Message := ⟨false, Bytes.doc true⟩

/-- Concrete stream state used to witness C7: a sentinel at the head of
the queue, with two payloads and one extra sentinel pending behind it. -/
def sentinelState : StreamState :=
  { initialStream false with
      readLoopStarted := true
      writeQueue := [closeMsg, payloadMsg, closeMsg, payloadMsg] }

/-- Concrete receive error: a bare `context.Canceled` (not a
`connect.Error`), as produced by a cancelled stream context. -/
def bareCancel : RecvError :=
  { isEOF := false
    isConnect := false
    code := ""
    msgHasEOF := false
    isCtxCanceled := true
    errStrHasCtxCanceled := true
    msgHasCtxCanceled := false
    errText := "context canceled"
    details := [] }

/-- Concrete receive error: a `connect.Error` with code "canceled". -/
def connectCancel : RecvError :=
  { isEOF := false
    isConnect := true
    code := "canceled"
    msgHasEOF := false
    isCtxCanceled := false
    errStrHasCtxCanceled := false
    msgHasCtxCanceled := false
    errText := "canceled: stream canceled"
    details := ["detail-entry"] }

/-- A callable listener that throws when invoked. -/
def throwingListener : Listener := ⟨true, true⟩

/-- A callable listener that returns normally. -/
def quietListener : Listener := ⟨true, false⟩

/-- A concrete schema: a message with a single int field "number". -/
def numberSchema : PType := .pField "number" .pInt .pNil

/-- A concrete representable value for `numberSchema`. -/
def numberValue : JVal := .jField "number" (.jInt 5) .jEmptyObj

/-- A trace containing neither a read-loop start nor any send. -/
def cleanTr (tr : List Effect) : Prop :=
  Effect.startReadLoop ∉ tr ∧ ∀ b, Effect.sent b ∉ tr

/-- Shape of a trace produced from a state whose read loop has not yet
started: either nothing was sent (and the read loop was not started), or
the trace splits at the first send, which is immediately followed by the
unique read-loop start, with no further start afterwards. -/
def okFalse (tr : List Effect) : Prop :=
  cleanTr tr ∨ ∃ u b v, tr = u ++ Effect.sent b :: Effect.startReadLoop :: v ∧
    cleanTr u ∧ Effect.startReadLoop ∉ v

/-- Block invariant for one (or several composed) operations: the trace
shape appropriate to the starting state's `readLoopStarted` flag, plus
the link between the finishing state's flag and the trace. -/
def OkBlock (s : StreamState) (tr : List Effect) (s' : StreamState) : Prop :=
  (if s.readLoopStarted then Effect.startReadLoop ∉ tr else okFalse tr) ∧
  (s'.readLoopStarted = true ↔ (s.readLoopStarted = true ∨ Effect.startReadLoop ∈ tr))

/-! ## Basic lemmas about the shutdown path -/

/-- `shutdown` sets exactly the two one-shot flags. -/
lemma shutdown_fst (s : StreamState) :
    (shutdown s).1 = { s with doneClosed := true, queueClosed := true } := by
  cases s with
  | mk w ec ht tc dc qc rl sc wq we =>
      simp only [shutdown, closeTaskQueue]
      cases dc <;> cases qc <;> simp

/-- `shutdown`'s only observable effect is the once-guarded release of the
task queue. -/
lemma shutdown_snd (s : StreamState) :
    (shutdown s).2 = if s.queueClosed then [] else [Effect.releaseQueue] := by
  cases s with
  | mk w ec ht tc dc qc rl sc wq we =>
      simp only [shutdown, closeTaskQueue]
      cases dc <;> cases qc <;> simp

/-- The state reached by `closeStream`. -/
lemma closeStream_fst (s : StreamState) :
    (closeStream s).1 = { s with
        explicitlyClosed := true
        timeoutCancelled := s.hasTimeout || s.timeoutCancelled
        doneClosed := true
        queueClosed := true } := by
  cases s with
  | mk w ec ht tc dc qc rl sc wq we =>
      simp only [closeStream, shutdown_fst]
      cases ht <;> cases tc <;> simp

/-- The effects of `closeStream`. -/
lemma closeStream_snd (s : StreamState) :
    (closeStream s).2 =
      (if s.hasTimeout && !s.timeoutCancelled then [Effect.cancelTimeout] else [])
        ++ (if s.queueClosed then [] else [Effect.releaseQueue]) := by
  cases s with
  | mk w ec ht tc dc qc rl sc wq we =>
      simp only [closeStream, shutdown_snd]
      cases ht <;> cases tc <;> cases qc <;> simp

/-- `endStream` always leaves the write side closed. -/
lemma endStream_writing (s : StreamState) :
    (endStream s).1.writingState = WState.closed := by
  by_cases h : s.writingState = WState.closed
  · simp [endStream, h]
  · simp only [endStream, if_neg h]
    split <;> rfl

/-! ## C1 -/

/-- C1: for every stream whose `writingState` is `CLOSED`, `write(value)`
fails immediately with the synchronous "cannot write to a closed stream"
error and has no other observable effect: the state (and hence the write
queue) is unchanged and nothing is sent. -/
theorem write_to_closed_stream_rejected (s : StreamState) (d : JSData)
    (h : s.writingState = WState.closed) :
    write s d = (s, [Effect.throwClosedWrite]) := by
  simp [write, h]

/-- Witness for C1 at a concrete closed stream. -/
theorem write_to_closed_stream_rejected_witness :
    ({ initialStream false with writingState := WState.closed } : StreamState).writingState
        = WState.closed
    ∧ write { initialStream false with writingState := WState.closed } (JSData.obj true)
        = ({ initialStream false with writingState := WState.closed },
           [Effect.throwClosedWrite]) :=
  ⟨by decide, write_to_closed_stream_rejected _ _ (by decide)⟩

/-! ## C2 -/

/-- C2: `end()` and `close()` are idempotent beyond the first call: a
second `end()` changes nothing (in particular it enqueues no further
close-write sentinel) and produces no effect, and a second `close()`
changes nothing and produces no effect (in particular it does not release
the completion queue again, and cannot cause another terminal event since
the `done` signal and queue release are already spent). -/
theorem end_close_idempotent (s : StreamState) :
    endStream (endStream s).1 = ((endStream s).1, []) ∧
    closeStream (closeStream s).1 = ((closeStream s).1, []) := by
  constructor
  · have h : (endStream s).1.writingState = WState.closed := endStream_writing s
    generalize (endStream s).1 = t at h ⊢
    simp [endStream, h]
  · cases s with
    | mk w ec ht tc dc qc rl sc wq we =>
        cases ht <;> cases tc <;> cases dc <;> cases qc <;>
          simp [closeStream, shutdown, closeTaskQueue]

/-! ## C5 (corrected) -/

/-- Counterexample to C5 as stated: on a freshly created stream (write
side `OPEN`), a full `close()` returns with `writingState` still `OPEN` —
the OPEN→CLOSED transition is not triggered by `close()`; only `end()`
performs it.  (Writes after `close()` are rejected through the fired
`done` signal, with the distinct "stream is closed" error.) -/
theorem close_leaves_writingState_open :
    (initialStream false).writingState = WState.opened ∧
    (closeStream (initialStream false)).1.writingState ≠ WState.closed ∧
    (write (closeStream (initialStream false)).1 (JSData.obj true)).2
      = [Effect.throwStreamClosed] := by
  decide

/-! ## Preservation of the write-side state -/

/-- `write` never changes `writingState`. -/
lemma write_writingState (s : StreamState) (d : JSData) :
    (write s d).1.writingState = s.writingState := by
  cases d <;> simp only [write] <;> split_ifs <;> rfl

/-- `processMessage` never changes `writingState`. -/
lemma processMessage_writingState (env : Env) (s : StreamState) (m : Message) :
    (processMessage env s m).1.writingState = s.writingState := by
  simp only [processMessage]
  split_ifs <;> simp [shutdown_fst]

/-- The drain loop never changes `writingState`. -/
lemma drainPending_writingState (env : Env) :
    ∀ (ms : List Message) (s : StreamState),
      (drainPending env s ms).1.writingState = s.writingState := by
  intro ms
  induction ms with
  | nil => intro s; simp [drainPending, shutdown_fst]
  | cons m rest ih =>
      intro s
      by_cases h : m.isClosing
      · simp only [drainPending, if_pos h]; exact ih s
      · simp only [drainPending, if_neg h]
        rw [ih, processMessage_writingState]

/-- A write-loop step never changes `writingState`. -/
lemma writeLoopStep_writingState (env : Env) (s : StreamState) :
    (writeLoopStep env s).1.writingState = s.writingState := by
  simp only [writeLoopStep]
  split_ifs
  · rfl
  · rfl
  · rcases hq : s.writeQueue with _ | ⟨m, rest⟩
    · simp [hq]
    · simp only [hq]
      by_cases h : m.isClosing
      · simp [h, drainPending_writingState]
      · simp [h, processMessage_writingState]

/-- Once the write side is closed, no operation reopens it. -/
lemma applyOp_writingState_closed (env : Env) (s : StreamState) (op : Op)
    (h : s.writingState = WState.closed) :
    (applyOp env s op).1.writingState = WState.closed := by
  cases op with
  | write d => rw [applyOp, write_writingState]; exact h
  | endOp => exact endStream_writing s
  | closeOp => rw [applyOp, closeStream_fst]; exact h
  | step => rw [applyOp, writeLoopStep_writingState]; exact h

/-- Once the write side is closed, it stays closed under any run. -/
lemma runOps_writingState_closed (env : Env) :
    ∀ (ops : List Op) (s : StreamState), s.writingState = WState.closed →
      (runOps env s ops).1.writingState = WState.closed := by
  intro ops
  induction ops with
  | nil => intro s h; exact h
  | cons op rest ih =>
      intro s h
      simp only [runOps]
      exact ih _ (applyOp_writingState_closed env s op h)

/-- C5 (amended): the write-side state machine has exactly one one-way
transition OPEN → CLOSED and it is triggered only by `end()`: after
`end()` returns, `writingState` is `CLOSED`; `close()` leaves
`writingState` untouched (writes after `close()` are instead rejected
through the fired `done` signal); `write` never changes `writingState`;
and once `CLOSED`, no sequence of operations ever sets it back to
`OPEN`. -/
theorem writingState_one_way :
    (∀ s : StreamState, (endStream s).1.writingState = WState.closed) ∧
    (∀ s : StreamState, (closeStream s).1.writingState = s.writingState) ∧
    (∀ (s : StreamState) (d : JSData), (write s d).1.writingState = s.writingState) ∧
    (∀ (env : Env) (s : StreamState) (ops : List Op),
      s.writingState = WState.closed →
      (runOps env s ops).1.writingState = WState.closed) := by
  refine ⟨endStream_writing, ?_, write_writingState,
    fun env s ops h => runOps_writingState_closed env ops s h⟩
  intro s
  rw [closeStream_fst]

/-- Witness for C5's amended statement on a concrete closed stream. -/
theorem writingState_one_way_witness :
    ({ initialStream false with writingState := WState.closed } : StreamState).writingState
        = WState.closed ∧
    (runOps ⟨fun _ => true⟩ { initialStream false with writingState := WState.closed }
        [Op.step, Op.closeOp, Op.write (JSData.obj true)]).1.writingState = WState.closed :=
  ⟨by decide, writingState_one_way.2.2.2 ⟨fun _ => true⟩ _ _ (by decide)⟩

/-! ## C4 (code bug) -/

/-- C4, evaluated at the failing input: a script `write(null)` enqueues a
nil payload without a synchronous failure, but when the write worker
processes it, `protojson.Unmarshal` rejects the empty input, so the
stream emits an `error` event and shuts down — no message is ever sent,
contradicting the claim (and the intent stated in the repository's own
test, "Writing null should work (sends empty message)"). -/
theorem write_null_emits_error_and_shuts_down :
    (runOps ⟨fun _ => true⟩ (initialStream false) [Op.write JSData.nullish, Op.step]).2
      = [Effect.emitErrorEv, Effect.releaseQueue] ∧
    (∀ b, Effect.sent b ∉
      (runOps ⟨fun _ => true⟩ (initialStream false) [Op.write JSData.nullish, Op.step]).2) ∧
    (runOps ⟨fun _ => true⟩ (initialStream false)
        [Op.write JSData.nullish, Op.step]).1.doneClosed = true := by
  refine ⟨by decide, ?_, by decide⟩
  intro b
  have h : (runOps ⟨fun _ => true⟩ (initialStream false)
      [Op.write JSData.nullish, Op.step]).2 = [Effect.emitErrorEv, Effect.releaseQueue] := by
    decide
  rw [h]
  simp

/-! ## C7 -/

/-- Effects of the drain loop when every pending payload unmarshals and
every send succeeds: all pending payloads are sent in enqueue order,
further sentinels contribute nothing, and only then come the half-close
and the shutdown's queue release. -/
lemma drainPending_effects (env : Env) (hsend : ∀ n, env.sendOk n = true) :
    ∀ (ms : List Message) (s : StreamState),
      s.doneClosed = false → s.queueClosed = false → s.readLoopStarted = true →
      (∀ m ∈ ms, m.isClosing = false → unmarshalOk m.msg = true) →
      (drainPending env s ms).2
        = (ms.filter (fun m => !m.isClosing)).map (fun m => Effect.sent m.msg)
            ++ [Effect.closeRequest, Effect.releaseQueue] := by
  intro ms
  induction ms with
  | nil =>
      intro s hd hq _ _
      simp [drainPending, shutdown_snd, hq]
  | cons m rest ih =>
      intro s hd hq hrl hok
      by_cases hcl : m.isClosing
      · simp only [drainPending, if_pos hcl]
        rw [ih s hd hq hrl (fun x hx hx' => hok x (List.mem_cons_of_mem m hx) hx')]
        simp [hcl]
      · have hum : unmarshalOk m.msg = true :=
          hok m (List.mem_cons_self m rest) (by simpa using hcl)
        have hps : processMessage env s m
            = ({ s with sendCount := s.sendCount + 1, readLoopStarted := true },
               [Effect.sent m.msg]) := by
          simp [processMessage, hum, hsend s.sendCount, hrl]
        simp only [drainPending, if_neg hcl, hps]
        rw [ih _ (by simpa using hd) (by simpa using hq) rfl
          (fun x hx hx' => hok x (List.mem_cons_of_mem m hx) hx')]
        simp [hcl]

/-- C7: when the write loop dequeues a close-write sentinel (under an
environment where every pending payload unmarshals and every send
succeeds), it first sends every payload message still pending in the
queue, in enqueue order, discarding any additional sentinels encountered
while draining, and only after the queue is drained does it issue the
half-close (`CloseRequest`) and invoke `shutdown` — so the sentinel is
honored only after all messages enqueued strictly before it were sent. -/
theorem sentinel_drains_then_closes (env : Env) (s : StreamState) (m0 : Message)
    (ms : List Message)
    (hq : s.writeQueue = m0 :: ms) (hm0 : m0.isClosing = true)
    (hwe : s.writerExited = false) (hd : s.doneClosed = false)
    (hqc : s.queueClosed = false) (hrl : s.readLoopStarted = true)
    (hok : ∀ m ∈ ms, m.isClosing = false → unmarshalOk m.msg = true)
    (hsend : ∀ n, env.sendOk n = true) :
    (writeLoopStep env s).2
      = (ms.filter (fun m => !m.isClosing)).map (fun m => Effect.sent m.msg)
          ++ [Effect.closeRequest, Effect.releaseQueue] := by
  simp only [writeLoopStep, hwe, hd, hq, hm0, Bool.false_eq_true, if_false, if_true]
  exact drainPending_effects env hsend ms _ rfl hqc hrl hok

/-- Witness for C7 at `sentinelState`. -/
theorem sentinel_drains_then_closes_witness :
    sentinelState.writeQueue = closeMsg :: [payloadMsg, closeMsg, payloadMsg] ∧
    (writeLoopStep ⟨fun _ => true⟩ sentinelState).2
      = ([payloadMsg, closeMsg, payloadMsg].filter (fun m => !m.isClosing)).map
          (fun m => Effect.sent m.msg)
          ++ [Effect.closeRequest, Effect.releaseQueue] :=
  ⟨by decide, sentinel_drains_then_closes ⟨fun _ => true⟩ sentinelState closeMsg
    [payloadMsg, closeMsg, payloadMsg]
    (by decide) (by decide) (by decide) (by decide) (by decide) (by decide)
    (by decide) (fun n => rfl)⟩

/-! ## C3 (corrected) -/

/-- Counterexample to C3 as stated: `bareCancel` is classified as a
cancellation and `explicitlyClosed` is false, so the read loop emits
`error` — but the emitted error object carries no `code` and no
`details` (only `message`), because `emitError` builds the structured
payload only for `connect.Error` values; the claim promises an error
"with code, message, details". -/
theorem cancellation_error_lacks_code :
    cancelClassified bareCancel = true ∧
    eofClassified bareCancel = false ∧
    classifyRecv bareCancel false
      = ReadEmit.emitErr { code := none, message := "context canceled", details := none } := by
  decide

/-- C3 (amended): for every receive error that the read loop classifies
as a cancellation (and not as end-of-stream), `explicitlyClosed` is the
sole discriminator: the loop emits `end` when it is true and emits
`error` when it is false, where the error payload carries code, message
and details when the error is a `connect.Error` and only a message
otherwise. -/
theorem cancellation_discriminated_by_explicit_close (e : RecvError) (ec : Bool)
    (h1 : eofClassified e = false) (h2 : cancelClassified e = true) :
    classifyRecv e ec = if ec then ReadEmit.emitEnd else ReadEmit.emitErr (errorPayload e) := by
  rcases e with ⟨eof, conn, code, mEOF, ctx, estr, mctx, etext, det⟩
  simp only [eofClassified] at h1
  simp only [cancelClassified] at h2
  by_cases hcode : code = "canceled" <;>
    cases eof <;> cases conn <;> cases mEOF <;> cases ctx <;> cases estr <;> cases mctx <;>
      cases ec <;> simp_all [classifyRecv, errorPayload]

/-- Witness for C3's amended statement: a connect "canceled" error with
`explicitlyClosed = false` is emitted as `error` with the structured
payload. -/
theorem cancellation_discriminated_witness :
    eofClassified connectCancel = false ∧
    cancelClassified connectCancel = true ∧
    classifyRecv connectCancel false
      = if false then ReadEmit.emitEnd else ReadEmit.emitErr (errorPayload connectCancel) :=
  ⟨by decide, by decide,
    cancellation_discriminated_by_explicit_close connectCancel false (by decide) (by decide)⟩

/-! ## C8 -/

/-- C8: if a registered listener throws during its invocation, every
later-registered listener for the same event is still invoked for that
emission (the thrown error is swallowed by `emit`, which discards each
invocation's result), and every later-queued event — including the
terminal `end` — is still delivered by the task-queue drain. -/
theorem listener_throw_isolated (pre post : List Listener) (l : Listener)
    (q1 q2 : List (List Listener)) (ev : List Listener)
    (h : l.callable = true) :
    emit (pre ++ l :: post) = emit pre ++ invokeListener l :: emit post ∧
    drainQueue (q1 ++ ev :: q2) = drainQueue q1 ++ emit ev :: drainQueue q2 := by
  constructor
  · simp [emit, List.filterMap_append, List.filterMap_cons, h]
  · simp [drainQueue]

/-- Witness for C8: a throwing listener registered before a quiet one
does not suppress the quiet one's invocation, nor a later event. -/
theorem listener_throw_isolated_witness :
    quietListener.callable = true ∧
    (emit ([throwingListener] ++ quietListener :: [quietListener])
        = emit [throwingListener] ++ invokeListener quietListener :: emit [quietListener] ∧
     drainQueue ([[throwingListener]] ++ [quietListener] :: [])
        = drainQueue [[throwingListener]] ++ emit [quietListener] :: drainQueue []) :=
  ⟨by decide, listener_throw_isolated [throwingListener] [quietListener] quietListener
      [[throwingListener]] [] [quietListener] (by decide)⟩

/-! ## C9 -/

/-- C9: round-trip law of the schema-driven codec — for every value the
schema can represent (encoding succeeds), decoding the encoded wire
message with the same schema returns the original value. -/
theorem encode_decode_roundtrip (v : JVal) : ∀ (t : PType) (w : Wire),
    encode t v = some w → decode t w = some v := by
  induction v with
  | jBool b =>
      intro t w h
      cases t <;> simp_all [encode]
      all_goals subst h
      all_goals rfl
  | jInt n =>
      intro t w h
      cases t <;> simp_all [encode]
      all_goals subst h
      all_goals rfl
  | jStr s =>
      intro t w h
      cases t <;> simp_all [encode]
      all_goals subst h
      all_goals rfl
  | jEmptyObj =>
      intro t w h
      cases t <;> simp_all [encode]
      all_goals subst h
      all_goals rfl
  | jEmptyArr =>
      intro t w h
      cases t <;> simp_all [encode]
      all_goals subst h
      all_goals rfl
  | jField name v vrest ihv ihr =>
      intro t w h
      cases t with
      | pBool => simp [encode] at h
      | pInt => simp [encode] at h
      | pString => simp [encode] at h
      | pList t => simp [encode] at h
      | pNil => simp [encode] at h
      | pField n t rest =>
          simp only [encode] at h
          split_ifs at h with hn
          · rcases hv : encode t v with _ | w1 <;> rw [hv] at h
            · simp at h
            · rcases hr : encode rest vrest with _ | w2 <;> rw [hr] at h
              · simp at h
              · simp only [Option.some.injEq] at h
                subst h
                subst hn
                simp [decode, ihv _ _ hv, ihr _ _ hr]
  | jCons hd tl ihh iht =>
      intro t w h
      cases t with
      | pBool => simp [encode] at h
      | pInt => simp [encode] at h
      | pString => simp [encode] at h
      | pNil => simp [encode] at h
      | pField n t rest => simp [encode] at h
      | pList t =>
          simp only [encode] at h
          rcases hv : encode t hd with _ | w1 <;> rw [hv] at h
          · simp at h
          · rcases hr : encode (PType.pList t) tl with _ | w2 <;> rw [hr] at h
            · simp at h
            · simp only [Option.some.injEq] at h
              subst h
              simp [decode, ihh _ _ hv, iht _ _ hr]

/-- Witness for C9 at a concrete schema and value. -/
theorem encode_decode_roundtrip_witness :
    encode numberSchema numberValue
        = some (.wField "number" (.wVarint 5) .wEmptyMsg) ∧
    decode numberSchema (.wField "number" (.wVarint 5) .wEmptyMsg) = some numberValue :=
  ⟨by decide, encode_decode_roundtrip numberValue numberSchema _ (by decide)⟩

/-! ## C10 -/

/-- C10: a received message produces a `data` event only when the
marshalled payload is non-empty — an empty payload produces no event at
all — and a non-empty payload that fails to parse as JSON is delivered
to `data` listeners as a raw string, while a parsing payload is
delivered as the parsed object. -/
theorem emitData_gated_on_nonempty (parse : String → Option String) (data : String) :
    (data.length = 0 → emitDataEvent parse data = none) ∧
    (data.length > 0 → parse data = none →
        emitDataEvent parse data = some (DataEvent.rawString data)) ∧
    (∀ v, data.length > 0 → parse data = some v →
        emitDataEvent parse data = some (DataEvent.parsedObj v)) := by
  refine ⟨fun h0 => ?_, fun hp hn => ?_, fun v hp hv => ?_⟩
  · simp [emitDataEvent, h0]
  · simp [emitDataEvent, hp, hn]
  · simp [emitDataEvent, hp, hv]

/-- Witness for C10: the empty payload yields no event, an unparsable
"x" is delivered raw, a parsable "x" is delivered parsed. -/
theorem emitData_gated_on_nonempty_witness :
    emitDataEvent (fun _ => none) "" = none ∧
    emitDataEvent (fun _ => none) "x" = some (DataEvent.rawString "x") ∧
    emitDataEvent (fun s => some s) "x" = some (DataEvent.parsedObj "x") :=
  ⟨(emitData_gated_on_nonempty (fun _ => none) "").1 rfl,
   (emitData_gated_on_nonempty (fun _ => none) "x").2.1 (by decide) rfl,
   (emitData_gated_on_nonempty (fun s => some s) "x").2.2 "x" (by decide) rfl⟩

/-! ## C6: exactly-once, send-gated start of the read loop -/

lemma cleanTr_append {t1 t2 : List Effect} (h1 : cleanTr t1) (h2 : cleanTr t2) :
    cleanTr (t1 ++ t2) :=
  ⟨fun h => (List.mem_append.mp h).elim h1.1 h2.1,
   fun b h => (List.mem_append.mp h).elim (h1.2 b) (h2.2 b)⟩

lemma okBlock_comp {s s1 s2 : StreamState} {e1 e2 : List Effect}
    (h1 : OkBlock s e1 s1) (h2 : OkBlock s1 e2 s2) :
    OkBlock s (e1 ++ e2) s2 := by
  obtain ⟨p1, l1⟩ := h1
  obtain ⟨p2, l2⟩ := h2
  constructor
  · by_cases hs : s.readLoopStarted = true
    · rw [if_pos hs] at p1 ⊢
      have hs1 : s1.readLoopStarted = true := l1.mpr (Or.inl hs)
      rw [if_pos hs1] at p2
      intro hmem
      rcases List.mem_append.mp hmem with h | h
      · exact p1 h
      · exact p2 h
    · rw [if_neg hs] at p1 ⊢
      rcases p1 with hclean | ⟨u, b, v, heq, hu, hv⟩
      · have hs1 : ¬ s1.readLoopStarted = true := by
          intro h
          rcases l1.mp h with h' | h'
          · exact hs h'
          · exact hclean.1 h'
        rw [if_neg hs1] at p2
        rcases p2 with hclean2 | ⟨u, b, v, heq, hu, hv⟩
        · exact Or.inl (cleanTr_append hclean hclean2)
        · refine Or.inr ⟨e1 ++ u, b, v, ?_, cleanTr_append hclean hu, hv⟩
          rw [heq, List.append_assoc]
      · have hs1 : s1.readLoopStarted = true := l1.mpr (Or.inr (by rw [heq]; simp))
        rw [if_pos hs1] at p2
        refine Or.inr ⟨u, b, v ++ e2, ?_, hu, ?_⟩
        · rw [heq]; simp
        · intro hmem
          rcases List.mem_append.mp hmem with h | h
          · exact hv h
          · exact p2 h
  · rw [l2, l1]
    simp [List.mem_append, or_assoc]

/-- A block with a send-free, start-free trace that preserves the flag
satisfies the invariant. -/
lemma okBlock_of_clean {s s' : StreamState} {tr : List Effect}
    (hclean : cleanTr tr) (hpres : s'.readLoopStarted = s.readLoopStarted) :
    OkBlock s tr s' := by
  constructor
  · by_cases hs : s.readLoopStarted = true
    · rw [if_pos hs]; exact hclean.1
    · rw [if_neg hs]; exact Or.inl hclean
  · rw [hpres]
    exact ⟨fun h => Or.inl h, fun h => h.elim id (fun h' => absurd h' hclean.1)⟩

lemma cleanTr_nil : cleanTr [] := ⟨by simp, fun b => by simp⟩

lemma shutdown_clean (s : StreamState) : cleanTr (shutdown s).2 := by
  rw [shutdown_snd]
  split_ifs
  · exact cleanTr_nil
  · exact ⟨by simp, fun b => by simp⟩

lemma write_okBlock (s : StreamState) (d : JSData) :
    OkBlock s (write s d).2 (write s d).1 := by
  apply okBlock_of_clean
  · cases d <;> simp only [write] <;> split_ifs <;>
      exact ⟨by simp, fun b => by simp⟩
  · cases d <;> simp only [write] <;> split_ifs <;> rfl

lemma endStream_okBlock (s : StreamState) :
    OkBlock s (endStream s).2 (endStream s).1 := by
  apply okBlock_of_clean
  · simp only [endStream]
    split_ifs <;> exact cleanTr_nil
  · simp only [endStream]
    split_ifs <;> rfl

lemma closeStream_okBlock (s : StreamState) :
    OkBlock s (closeStream s).2 (closeStream s).1 := by
  apply okBlock_of_clean
  · rw [closeStream_snd]
    split_ifs <;> exact ⟨by simp, fun b => by simp⟩
  · rw [closeStream_fst]

lemma processMessage_okBlock (env : Env) (s : StreamState) (m : Message) :
    OkBlock s (processMessage env s m).2 (processMessage env s m).1 := by
  simp only [processMessage]
  split_ifs with h1 h2 h3
  · constructor
    · rw [if_pos h3]
      simp
    · simp [h3]
  · constructor
    · rw [if_neg h3]
      exact Or.inr ⟨[], m.msg, [], rfl, cleanTr_nil, by simp⟩
    · simp
  · exact okBlock_of_clean
      ⟨fun h => by rcases List.mem_cons.mp h with h' | h'
                   · cases h'
                   · exact (shutdown_clean _).1 h',
       fun b h => by rcases List.mem_cons.mp h with h' | h'
                     · cases h'
                     · exact (shutdown_clean _).2 b h'⟩
      (by rw [shutdown_fst])
  · exact okBlock_of_clean
      ⟨fun h => by rcases List.mem_cons.mp h with h' | h'
                   · cases h'
                   · exact (shutdown_clean _).1 h',
       fun b h => by rcases List.mem_cons.mp h with h' | h'
                     · cases h'
                     · exact (shutdown_clean _).2 b h'⟩
      (by rw [shutdown_fst])

lemma drainPending_okBlock (env : Env) :
    ∀ (ms : List Message) (s : StreamState),
      OkBlock s (drainPending env s ms).2 (drainPending env s ms).1 := by
  intro ms
  induction ms with
  | nil =>
      intro s
      simp only [drainPending]
      apply okBlock_of_clean
      · exact ⟨fun h => by rcases List.mem_cons.mp h with h' | h'
                           · cases h'
                           · exact (shutdown_clean _).1 h',
               fun b h => by rcases List.mem_cons.mp h with h' | h'
                             · cases h'
                             · exact (shutdown_clean _).2 b h'⟩
      · rw [shutdown_fst]
  | cons m rest ih =>
      intro s
      by_cases h : m.isClosing
      · simp only [drainPending, if_pos h]
        exact ih s
      · simp only [drainPending, if_neg h]
        exact okBlock_comp (processMessage_okBlock env s m) (ih _)

/-- `OkBlock` only depends on the starting state through its
`readLoopStarted` flag. -/
lemma okBlock_start_congr {s t s' : StreamState} {tr : List Effect}
    (h : t.readLoopStarted = s.readLoopStarted) (hb : OkBlock s tr s') :
    OkBlock t tr s' := by
  obtain ⟨p, l⟩ := hb
  constructor
  · rw [h]; exact p
  · rw [h]; exact l

lemma writeLoopStep_okBlock (env : Env) (s : StreamState) :
    OkBlock s (writeLoopStep env s).2 (writeLoopStep env s).1 := by
  simp only [writeLoopStep]
  split_ifs
  · exact okBlock_of_clean cleanTr_nil rfl
  · exact okBlock_of_clean cleanTr_nil rfl
  · rcases hq : s.writeQueue with _ | ⟨m, rest⟩
    · exact okBlock_of_clean cleanTr_nil rfl
    · by_cases h : m.isClosing
      · simp only [if_pos h]
        exact okBlock_start_congr rfl
          (drainPending_okBlock env rest { s with writeQueue := [] })
      · simp only [if_neg h]
        exact okBlock_start_congr rfl
          (processMessage_okBlock env { s with writeQueue := rest } m)

lemma applyOp_okBlock (env : Env) (s : StreamState) (op : Op) :
    OkBlock s (applyOp env s op).2 (applyOp env s op).1 := by
  cases op with
  | write d => exact write_okBlock s d
  | endOp => exact endStream_okBlock s
  | closeOp => exact closeStream_okBlock s
  | step => exact writeLoopStep_okBlock env s

lemma runOps_okBlock (env : Env) :
    ∀ (ops : List Op) (s : StreamState),
      OkBlock s (runOps env s ops).2 (runOps env s ops).1 := by
  intro ops
  induction ops with
  | nil => intro s; exact okBlock_of_clean cleanTr_nil rfl
  | cons op rest ih =>
      intro s
      simp only [runOps]
      exact okBlock_comp (applyOp_okBlock env s op) (ih _)

/-- A list with a distinguished occurrence of `a` that appears nowhere
else splits uniquely at that occurrence. -/
lemma split_at_unique {α : Type} (a : α) :
    ∀ (u u' v v' : List α), u ++ a :: v = u' ++ a :: v' → a ∉ u' → a ∉ v' →
      u = u' ∧ v = v' := by
  intro u
  induction u with
  | nil =>
      intro u' v v' heq hu' hv'
      cases u' with
      | nil => simpa using heq
      | cons x u2 =>
          simp only [List.nil_append, List.cons_append, List.cons.injEq] at heq
          obtain ⟨hx, htail⟩ := heq
          exact absurd (hx ▸ List.mem_cons_self x u2) hu'
  | cons y u2 ih =>
      intro u' v v' heq hu' hv'
      cases u' with
      | nil =>
          simp only [List.cons_append, List.nil_append, List.cons.injEq] at heq
          obtain ⟨hy, htail⟩ := heq
          have hmem : a ∈ v' := by rw [← htail]; simp
          exact absurd hmem hv'
      | cons x u2' =>
          simp only [List.cons_append, List.cons.injEq] at heq
          obtain ⟨hyx, htail⟩ := heq
          have hu2' : a ∉ u2' := fun hm => hu' (List.mem_cons_of_mem x hm)
          obtain ⟨h1, h2⟩ := ih u2' v v' htail hu2' hv'
          exact ⟨by rw [hyx, h1], h2⟩

/-- C6: in every run of a freshly created stream, the read loop is
started at most once, and any start is immediately preceded by a
successful send that is the first successful send of the run: whenever
the trace splits around a `startReadLoop` effect, no other
`startReadLoop` occurs anywhere, and the prefix ends with a `sent`
preceded by no other `sent` — so the read loop never starts before a
send has succeeded, and further successful sends never start it again. -/
theorem read_loop_started_once_after_first_send (env : Env) (ht : Bool) (ops : List Op)
    (u v : List Effect)
    (hsplit : (runOps env (initialStream ht) ops).2
        = u ++ Effect.startReadLoop :: v) :
    (Effect.startReadLoop ∉ u ∧ Effect.startReadLoop ∉ v) ∧
    ∃ u' b, u = u' ++ [Effect.sent b] ∧ ∀ c, Effect.sent c ∉ u' := by
  obtain ⟨p, l⟩ := runOps_okBlock env ops (initialStream ht)
  rw [if_neg (by simp [initialStream])] at p
  rcases p with hclean | ⟨u0, b0, v0, heq, hu0, hv0⟩
  · exfalso
    apply hclean.1
    rw [hsplit]
    simp
  · have hnotin : Effect.startReadLoop ∉ u0 ++ [Effect.sent b0] := by
      intro hm
      rcases List.mem_append.mp hm with h | h
      · exact hu0.1 h
      · simp at h
    have heq2 : u ++ Effect.startReadLoop :: v
        = (u0 ++ [Effect.sent b0]) ++ Effect.startReadLoop :: v0 := by
      rw [← hsplit, heq]
      simp
    obtain ⟨huu, hvv⟩ :=
      split_at_unique Effect.startReadLoop u (u0 ++ [Effect.sent b0]) v v0 heq2 hnotin hv0
    refine ⟨⟨?_, ?_⟩, u0, b0, huu, fun c => hu0.2 c⟩
    · rw [huu]; exact hnotin
    · rw [hvv]; exact hv0

/-- Witness for C6: a run with two successful sends, whose trace splits
at the unique read-loop start, right after the first send. -/
theorem read_loop_started_once_witness :
    (runOps ⟨fun _ => true⟩ (initialStream false)
        [Op.write (JSData.obj true), Op.step, Op.write (JSData.obj true), Op.step]).2
      = [Effect.sent (Bytes.doc true)]
          ++ Effect.startReadLoop :: [Effect.sent (Bytes.doc true)] ∧
    ((Effect.startReadLoop ∉ [Effect.sent (Bytes.doc true)] ∧
      Effect.startReadLoop ∉ [Effect.sent (Bytes.doc true)]) ∧
     ∃ u' b, [Effect.sent (Bytes.doc true)] = u' ++ [Effect.sent b] ∧
       ∀ c, Effect.sent c ∉ u') :=
  ⟨by decide, read_loop_started_once_after_first_send ⟨fun _ => true⟩ false
      [Op.write (JSData.obj true), Op.step, Op.write (JSData.obj true), Op.step]
      [Effect.sent (Bytes.doc true)] [Effect.sent (Bytes.doc true)] (by decide)⟩
